import Mathlib

/-!
Verification of the order-fulfillment workflow of this repository against its
natural-language specification.

Shallow embedding notes:
* The SQLite `inventory` table (src/tools/database.py) is modelled as a list of
  rows; the `item_name TEXT PRIMARY KEY` column keys lookups, `SELECT ... WHERE
  item_name = ?` is `List.find?`, and `UPDATE ... WHERE item_name = ?` maps over
  all rows with that name (with a primary key these coincide).
* `price REAL` only ever participates in exact comparisons (`price IS NULL OR
  price = 0`) and assignment of the fixed seed prices, never in arithmetic, so
  prices are modelled exactly as integer cents (`19.99` becomes `1999`), with
  `none` standing for SQL `NULL`.
* Python `int` is `Int`; Python `bool` is `Bool`; a `NotRequired` TypedDict key
  or an absent storage key is an `Option` that is `none`.
* Stateful code threads the store / agent storage explicitly: a Python function
  that reads and writes the database becomes a Lean function taking and
  returning a `Store`.
-/

set_option maxRecDepth 4000

namespace FetchPay

/-- A row of the `inventory` table (src/tools/database.py, `init_database`):
`item_name TEXT PRIMARY KEY, quantity INTEGER NOT NULL, price REAL`.
Prices are in cents; `none` is SQL `NULL`. -/
structure Row where
  item_name : String
  quantity : Int
  price : Option Int
deriving DecidableEq

/-- The `inventory` table. -/
abbrev Store := List Row

/-- The query `SELECT ... FROM inventory WHERE item_name = ?` (first matching row). -/
def getRow? (db : Store) (name : String) : Option Row :=
  db.find? (fun r => r.item_name == name)

/-- The quantity column of the row named `name`, when present. -/
def getQty? (db : Store) (name : String) : Option Int :=
  (getRow? db name).map (fun r => r.quantity)

/-- The update `UPDATE inventory SET quantity = ? WHERE item_name = ?`. -/
def setQty (db : Store) (name : String) (q : Int) : Store :=
  db.map (fun r => if r.item_name == name then { r with quantity := q } else r)

/-- src/tools/database.py `subtract_inventory(item_name, quantity)`:
returns `False` (no mutation) when the row is missing or `current_qty <
quantity`; otherwise writes `current_qty - quantity` and returns `True`. -/
def subtract_inventory (db : Store) (item_name : String) (quantity : Int) : Bool × Store :=
  match getRow? db item_name with
  | none => (false, db)
  | some r =>
    if r.quantity < quantity then (false, db)
    else (true, setQty db item_name (r.quantity - quantity))

/-- src/tools/database.py `restock_item(item_name, quantity)`:
returns `False` when the row is missing; otherwise writes
`current_qty + quantity` and returns `True`. -/
def restock_item (db : Store) (item_name : String) (quantity : Int) : Bool × Store :=
  match getRow? db item_name with
  | none => (false, db)
  | some r => (true, setQty db item_name (r.quantity + quantity))

/-- Python `str.lower()` (ASCII case folding, which is all the catalog uses). -/
def pyLower (s : String) : String :=
  String.mk (s.data.map Char.toLower)

/-- Python `str.strip()`: drop leading and trailing whitespace. -/
def pyStrip (s : String) : String :=
  String.mk (((s.data.dropWhile Char.isWhitespace).reverse.dropWhile Char.isWhitespace).reverse)

/-- Python `.replace("-", "").replace(" ", "")`: delete every hyphen and space. -/
def removeHyphensSpaces (s : String) : String :=
  String.mk (s.data.filter (fun c => !(c == '-' || c == ' ')))

/-- Python `str.endswith("s")`. -/
def endsInS (s : String) : Bool :=
  s.data.getLast? == some 's'

/-- Python `s[:-1]`: drop the final character. -/
def dropLastChar (s : String) : String :=
  String.mk s.data.dropLast

/-- src/tools/database.py: `db_item_names`, the canonical identifiers stored in
the table. -/
def db_item_names : List String :=
  ["tshirt", "jeans", "shoes", "hat", "jacket"]

/-- src/tools/database.py: `name_mappings`, the alias table of
plural/singular and spelling variants. -/
def name_mappings : List (String × String) :=
  [("tshirts", "tshirt"), ("t-shirts", "tshirt"), ("t_shirts", "tshirt"),
   ("tshirt", "tshirt"), ("shoe", "shoes"), ("shoes", "shoes"),
   ("hats", "hat"), ("hat", "hat"), ("jackets", "jacket"),
   ("jacket", "jacket"), ("jeans", "jeans"), ("jean", "jeans")]

/-- Python dict lookup `name_mappings[k]` (keys are distinct). -/
def lookupAlias (s : String) : Option String :=
  (name_mappings.find? (fun p => p.1 == s)).map (fun p => p.2)

/-- The pure normalization prefix of `normalize_item_name`: lowercase, strip,
then remove hyphens and spaces. -/
def preNormalize (s : String) : String :=
  removeHyphensSpaces (pyStrip (pyLower s))

/-- src/tools/database.py `normalize_item_name(item_name)`: lowercase and
strip, remove hyphens and spaces, apply the alias table, fall back to the
canonical set, and finally retry once with a trailing `s` removed. -/
def normalize_item_name (item_name : String) : String :=
  if item_name = "" then ""
  else
    let normalized := preNormalize item_name
    match lookupAlias normalized with
    | some v => v
    | none =>
      if normalized ∈ db_item_names then normalized
      else if endsInS normalized then
        let singular := dropLastChar normalized
        if singular ∈ db_item_names then singular
        else
          match lookupAlias singular with
          | some v => v
          | none => normalized
      else normalized

/-- src/tools/database.py `check_stock(item_name)`: exact-name lookup, then the
normalized name (only when it differs), then a case-insensitive lookup
(`LOWER(item_name) = LOWER(?)`); `0` when every lookup misses. -/
def check_stock (db : Store) (item_name : String) : Int :=
  let normalized := normalize_item_name item_name
  match getRow? db item_name with
  | some r => r.quantity
  | none =>
    match (if normalized ≠ item_name then getRow? db normalized else none) with
    | some r => r.quantity
    | none =>
      match db.find? (fun r => pyLower r.item_name == pyLower item_name) with
      | some r => r.quantity
      | none => 0

/-- src/tools/database.py `init_database`: the seed catalog inserted into an
empty table (prices in cents). -/
def seed_items : Store :=
  [⟨"tshirt", 10, some 1999⟩, ⟨"jeans", 5, some 4999⟩, ⟨"shoes", 8, some 7999⟩,
   ⟨"hat", 15, some 1499⟩, ⟨"jacket", 3, some 9999⟩]

/-- src/tools/database.py `init_database`: `default_prices`, used to backfill
prices on an already-populated table. -/
def default_prices : List (String × Int) :=
  [("tshirt", 1999), ("jeans", 4999), ("shoes", 7999), ("hat", 1499), ("jacket", 9999)]

/-- One row under `UPDATE inventory SET price = ? WHERE item_name = ? AND
(price IS NULL OR price = 0)` for a single `(item_name, price)` pair. -/
def backfill_step (r : Row) (np : String × Int) : Row :=
  if r.item_name == np.1 && (r.price == none || r.price == some 0) then
    { r with price := some np.2 }
  else r

/-- The whole-table effect of one backfill `UPDATE` statement. -/
def backfill_price (db : Store) (np : String × Int) : Store :=
  db.map (fun r => backfill_step r np)

/-- src/tools/database.py `init_database`: seed when `COUNT(*)` is zero,
otherwise run the price-backfill updates for each default price. -/
def init_database (db : Store) : Store :=
  if db = [] then seed_items
  else default_prices.foldl backfill_price db

/-- The default price recorded for `name`, if any. -/
def lookup_default_price (name : String) : Option Int :=
  (default_prices.find? (fun np => np.1 == name)).map (fun np => np.2)

/-! ## Workflow graph (src/agent_graph.py) -/

/-- A LangChain conversation message: `HumanMessage` or `AIMessage` with its
text content. -/
inductive LCMsg
  | human (content : String)
  | ai (content : String)
deriving DecidableEq

/-- One structured order line, `{"item_name": ..., "quantity": ...}`. -/
structure Item where
  item_name : String
  quantity : Int
deriving DecidableEq

/-- One value of the `stock_check_results` mapping built by
`stock_management_node`. -/
structure StockCheck where
  available_qty : Int
  requested_qty : Int
  is_available : Bool
deriving DecidableEq

/-- Python dict insert/update: replace the value in place when the key exists,
append otherwise. -/
def dictSet {α : Type} (l : List (String × α)) (k : String) (v : α) : List (String × α) :=
  if l.any (fun p => p.1 == k) then l.map (fun p => if p.1 == k then (k, v) else p)
  else l ++ [(k, v)]

/-- src/agent_graph.py `AgentState`: `messages` plus the `NotRequired` keys the
nodes read and write (`none` models an absent key). -/
structure AgentState where
  messages : List LCMsg
  user_request : Option String
  parsed_items : List Item
  stock_check_results : Option (List (String × StockCheck))
  stock_availability : Option Bool
  inventory_subtracted : Option Bool
  updated_stock_quantities : Option (List (String × Int))
  payment_requested : Option Bool
  payment_status : Option String
  status : Option String
  restocked_items : Option (List String)
  error_message : Option String
deriving DecidableEq

/-- Python `", ".join(f"\x7bitem['quantity']\x7dx \x7bitem['item_name']\x7d" ...)`. -/
def items_str_of (items : List Item) : String :=
  String.intercalate ", " (items.map (fun it => toString it.quantity ++ "x " ++ it.item_name))

/-- The `for item in parsed_items` loop of `stock_management_node`:
accumulates the results dict and the running `all_available` flag. -/
def stock_loop (db : Store) :
    List Item → List (String × StockCheck) → Bool → List (String × StockCheck) × Bool
  | [], results, all_available => (results, all_available)
  | it :: rest, results, all_available =>
    let available_qty := check_stock db it.item_name
    let is_available : Bool := decide (it.quantity ≤ available_qty)
    stock_loop db rest
      (dictSet results it.item_name ⟨available_qty, it.quantity, is_available⟩)
      (all_available && is_available)

/-- src/agent_graph.py `stock_management_node`: checks every requested item's
stock; on an empty order or any insufficient item it rejects. -/
def stock_management_node (x : AgentState × Store) : AgentState × Store :=
  let state := x.1
  let db := x.2
  if state.parsed_items = [] then
    ({ state with status := some "rejected",
                  error_message := some "No items to check stock for",
                  stock_availability := some false }, db)
  else
    let res := stock_loop db state.parsed_items [] true
    if res.2 then
      ({ state with stock_check_results := some res.1,
                    stock_availability := some true,
                    status := some "checking_stock" }, db)
    else
      let unavailable_items := (res.1.filter (fun p => !p.2.is_available)).map (fun p => p.1)
      let rejection := "Sorry, we don't have enough stock for: " ++
        String.intercalate ", " unavailable_items ++ ". Payment rejected."
      ({ state with stock_check_results := some res.1,
                    stock_availability := some false,
                    status := some "rejected",
                    messages := state.messages ++ [LCMsg.ai rejection] }, db)

/-- The `for item in parsed_items` loop of `warehouse_node`: subtracts each
item in order, returning early (without compensation) on the first failure. -/
def warehouse_loop (state : AgentState) :
    Store → List Item → List (String × Int) → AgentState × Store
  | db, [], upd =>
    ({ state with inventory_subtracted := some true,
                  updated_stock_quantities := some upd,
                  status := some "subtracting_inventory",
                  messages := state.messages ++
                    [LCMsg.ai ("Inventory updated. Items reserved: " ++
                      items_str_of state.parsed_items)] }, db)
  | db, it :: rest, upd =>
    let res := subtract_inventory db it.item_name it.quantity
    if res.1 then
      let updated_qty := check_stock res.2 it.item_name
      warehouse_loop state res.2 rest (dictSet upd it.item_name updated_qty)
    else
      ({ state with status := some "subtracting_inventory",
                    error_message := some ("Failed to subtract inventory for " ++ it.item_name) },
       res.2)

/-- src/agent_graph.py `warehouse_node`: subtracts inventory for every line
item; on any failure it stops and reports, leaving earlier subtractions in
place. -/
def warehouse_node (x : AgentState × Store) : AgentState × Store :=
  let state := x.1
  let db := x.2
  if state.parsed_items = [] then
    ({ state with status := some "subtracting_inventory",
                  error_message := some "No items to subtract" }, db)
  else warehouse_loop state db state.parsed_items []

/-- src/agent_graph.py `cashier_node`: unconditionally marks the payment
successful and the order completed, appending the completion message; the
store is untouched. -/
def cashier_node (x : AgentState × Store) : AgentState × Store :=
  let state := x.1
  ({ state with payment_status := some "successful",
                status := some "completed",
                messages := state.messages ++
                  [LCMsg.ai ("✅ Order completed successfully! Your purchase of " ++
                    items_str_of state.parsed_items ++
                    " has been processed. Thank you for your order!")] }, x.2)

/-- The `for item in parsed_items` loop of `restocker_node`: restocks each
item, recording the names that succeeded. -/
def restock_loop : Store → List Item → List String → List String × Store
  | db, [], restocked => (restocked, db)
  | db, it :: rest, restocked =>
    let res := restock_item db it.item_name it.quantity
    if res.1 then restock_loop res.2 rest (restocked ++ [it.item_name])
    else restock_loop res.2 rest restocked

/-- src/agent_graph.py `restocker_node`: restocks every line item, recording
successes, and completes. -/
def restocker_node (x : AgentState × Store) : AgentState × Store :=
  let state := x.1
  let db := x.2
  if state.parsed_items = [] then
    ({ state with status := some "restocking",
                  error_message := some "No items to restock" }, db)
  else
    let res := restock_loop db state.parsed_items []
    if res.1 ≠ [] then
      ({ state with restocked_items := some res.1,
                    status := some "completed",
                    messages := state.messages ++
                      [LCMsg.ai ("Items restocked: " ++ String.intercalate ", " res.1 ++
                        ". Inventory restored.")] }, res.2)
    else
      ({ state with restocked_items := some res.1, status := some "completed" }, res.2)

/-- src/agent_graph.py `route_after_stock_check`; the graph's `END` sentinel is
the string "END". -/
def route_after_stock_check (state : AgentState) : String :=
  if state.stock_availability.getD false then "warehouse" else "END"

/-- src/agent_graph.py `route_after_payment`. -/
def route_after_payment (state : AgentState) : String :=
  let payment_status := state.payment_status.getD "none"
  if payment_status = "failed" then "restocker"
  else if payment_status = "successful" then "END"
  else "END"

/-- One full execution of the compiled `workflow` graph: entry
`stock_management`, conditional edge via `route_after_stock_check`, edge
`warehouse → cashier`, conditional edge via `route_after_payment`, edge
`restocker → END`. -/
def graph_run (x : AgentState × Store) : AgentState × Store :=
  let x1 := stock_management_node x
  if route_after_stock_check x1.1 = "warehouse" then
    let x3 := cashier_node (warehouse_node x1)
    if route_after_payment x3.1 = "restocker" then restocker_node x3 else x3
  else x1

/-! ## Session state and `run_agent_turn` (src/agent_graph.py, src/protocols) -/

/-- One history entry, a `{"role": ..., "content": ...}` dict. -/
structure Turn where
  role : String
  content : String
deriving DecidableEq

/-- The per-session workflow-state dict persisted in agent storage
(`session_data["state"]`), restricted to the keys `run_agent_turn` copies in
and out plus `payment_confirmed`, which only the payment handler writes.
`none` models an absent key. -/
structure WfState where
  user_request : Option String
  parsed_items : Option (List Item)
  stock_check_results : Option (List (String × StockCheck))
  stock_availability : Option Bool
  inventory_subtracted : Option Bool
  updated_stock_quantities : Option (List (String × Int))
  payment_requested : Option Bool
  payment_status : Option String
  status : Option String
  restocked_items : Option (List String)
  error_message : Option String
  payment_confirmed : Option Bool
deriving DecidableEq

/-- The session-state dict with no keys set. -/
def emptyWf : WfState :=
  ⟨none, none, none, none, none, none, none, none, none, none, none, none⟩

/-- A key present in `new` overwrites `old`; an absent key keeps `old`. -/
def updKey {α : Type} (old new : Option α) : Option α :=
  match new with
  | some v => some v
  | none => old

/-- Python `state.update(new_state)`: keys present in `new` overwrite `old`
(`new` is built by `extract_wf`, which never carries `payment_confirmed`). -/
def mergeWf (old new : WfState) : WfState :=
  { user_request := updKey old.user_request new.user_request,
    parsed_items := updKey old.parsed_items new.parsed_items,
    stock_check_results := updKey old.stock_check_results new.stock_check_results,
    stock_availability := updKey old.stock_availability new.stock_availability,
    inventory_subtracted := updKey old.inventory_subtracted new.inventory_subtracted,
    updated_stock_quantities := updKey old.updated_stock_quantities new.updated_stock_quantities,
    payment_requested := updKey old.payment_requested new.payment_requested,
    payment_status := updKey old.payment_status new.payment_status,
    status := updKey old.status new.status,
    restocked_items := updKey old.restocked_items new.restocked_items,
    error_message := updKey old.error_message new.error_message,
    payment_confirmed := updKey old.payment_confirmed new.payment_confirmed }

/-- src/agent_graph.py `run_agent_turn`: conversion of stored history dicts to
LangChain messages (assistant turns with empty content are skipped). -/
def history_to_messages (history : List Turn) : List LCMsg :=
  history.filterMap (fun t =>
    if t.role = "user" then some (LCMsg.human t.content)
    else if t.role = "assistant" then
      (if t.content ≠ "" then some (LCMsg.ai t.content) else none)
    else none)

/-- src/agent_graph.py `run_agent_turn`: the `initial_state` dict — messages,
the structured items, status "checking_stock", and the session-state keys
copied when present. -/
def initial_agent_state (parsed_items : List Item) (session_state : WfState)
    (history : List Turn) : AgentState :=
  { messages := history_to_messages history,
    user_request := session_state.user_request,
    parsed_items := parsed_items,
    stock_check_results := session_state.stock_check_results,
    stock_availability := session_state.stock_availability,
    inventory_subtracted := session_state.inventory_subtracted,
    updated_stock_quantities := session_state.updated_stock_quantities,
    payment_requested := session_state.payment_requested,
    payment_status := session_state.payment_status,
    status := some "checking_stock",
    restocked_items := session_state.restocked_items,
    error_message := session_state.error_message }

/-- src/agent_graph.py `run_agent_turn`: the last `AIMessage` content of the
final graph state ("" when there is none). -/
def last_ai_content (msgs : List LCMsg) : String :=
  (msgs.reverse.findSome? (fun m =>
    match m with
    | LCMsg.ai c => some c
    | LCMsg.human _ => none)).getD ""

/-- src/agent_graph.py `run_agent_turn`: the `new_state` dict rebuilt from the
final graph state (`parsed_items` and `status` are always present there). -/
def extract_wf (final : AgentState) : WfState :=
  { user_request := final.user_request,
    parsed_items := some final.parsed_items,
    stock_check_results := final.stock_check_results,
    stock_availability := final.stock_availability,
    inventory_subtracted := final.inventory_subtracted,
    updated_stock_quantities := final.updated_stock_quantities,
    payment_requested := final.payment_requested,
    payment_status := final.payment_status,
    status := final.status,
    restocked_items := final.restocked_items,
    error_message := final.error_message,
    payment_confirmed := none }

/-- The `{"content", "state", "history"}` dict `run_agent_turn` returns. -/
structure RunResult where
  content : String
  state : WfState
  history : List Turn
deriving DecidableEq

/-- src/agent_graph.py `run_agent_turn`: build the initial state, run the
compiled graph against the inventory store, extract the last assistant
message and the new state, and append the turn to the history. -/
def run_agent_turn (db : Store) (parsed_items : List Item) (session_state : WfState)
    (history : List Turn) : RunResult × Store :=
  let y := graph_run (initial_agent_state parsed_items session_state history, db)
  let assistant_content := last_ai_content y.1.messages
  let user_content := "Purchase request: " ++ items_str_of parsed_items
  ({ content := assistant_content,
     state := extract_wf y.1,
     history := history ++ [⟨"user", user_content⟩, ⟨"assistant", assistant_content⟩] },
   y.2)

/-! ## Payment settlement handler (src/protocols/payment_proto.py) -/

/-- The per-session dict stored under `"sender::session"`: the workflow state,
the conversation history, and the structured items saved by the chat
handler. -/
structure SessionData where
  state : WfState
  history : List Turn
  parsed_items : Option (List Item)
deriving DecidableEq

/-- Messages the seller sends back during `on_commit`. -/
inductive OutMsg
  | completePayment (transaction_id : String)
  | chat (text : String)
  | rejectPayment (reason : String)
deriving DecidableEq

/-- The fields of a `CommitPayment` message that `on_commit` reads; the
`parsed_items` JSON in `msg.metadata` is modelled already decoded (`none` for
absent metadata or a failed parse). -/
structure CommitMsg where
  transaction_id : String
  payment_method : String
  amount : String
  metadata_parsed_items : Option (List Item)
deriving DecidableEq

/-- The seller agent's storage and effects, split by the disjoint key shapes
used in src/protocols/payment_proto.py: `commit_{tx}:{sender}:{session}`
idempotency markers, `paid:{sender}:{session}` flags, and `{sender}::{session}`
session dicts — plus the inventory store and the outgoing messages. -/
structure SellerState where
  txMarkers : List String
  paidKeys : List String
  sessions : List (String × SessionData)
  db : Store
  outbox : List OutMsg
deriving DecidableEq

/-- Python `_k(f"commit_...", sender, session)`: the idempotency-marker key. -/
def commit_key (tx sender session : String) : String :=
  "commit_" ++ tx ++ ":" ++ sender ++ ":" ++ session

/-- Python `_k("paid", sender, session)`. -/
def paid_key (sender session : String) : String :=
  "paid:" ++ sender ++ ":" ++ session

/-- Python `f"..."` joining sender and session with "::". -/
def session_key (sender session : String) : String :=
  sender ++ "::" ++ session

/-- Storage lookup for a session dict. -/
def lookupSession (sessions : List (String × SessionData)) (k : String) : Option SessionData :=
  (sessions.find? (fun p => p.1 == k)).map (fun p => p.2)

/-- src/protocols/payment_proto.py `on_commit`, lines 157–253: the effects of
a *verified* commit (the body of `if verified:`). Sets the per-transaction
idempotency marker, sends `CompletePayment`, marks the session paid, sets
`payment_confirmed` on the stored session state, resolves `parsed_items` from
the message metadata and then session storage (Python falsiness: an empty
list falls through), and either reports missing order details or runs the
LangGraph workflow, persists the merged state and history, and sends the
workflow's reply. -/
def settle_order (sender session : String) (msg : CommitMsg) (st : SellerState) : SellerState :=
  let txk := commit_key msg.transaction_id sender session
  let st1 : SellerState :=
    { st with txMarkers := st.txMarkers ++ [txk],
              outbox := st.outbox ++ [OutMsg.completePayment msg.transaction_id],
              paidKeys := st.paidKeys ++ [paid_key sender session] }
  let skey := session_key sender session
  let st2 : SellerState :=
    match lookupSession st1.sessions skey with
    | some sd =>
      let sd' := { sd with state := { sd.state with payment_confirmed := some true } }
      { st1 with sessions := dictSet st1.sessions skey sd' }
    | none => st1
  let p1 : List Item := msg.metadata_parsed_items.getD []
  let p2 : List Item :=
    if p1 = [] then ((lookupSession st2.sessions skey).bind (fun sd => sd.parsed_items)).getD []
    else p1
  if p2 = [] then
    { st2 with outbox := st2.outbox ++
        [OutMsg.chat "✅ Payment received, but order details not found. Please contact support."] }
  else
    let sd := (lookupSession st2.sessions skey).getD ⟨emptyWf, [], none⟩
    let rr := run_agent_turn st2.db p2 sd.state sd.history
    let sd2 := { sd with state := mergeWf sd.state rr.1.state, history := rr.1.history }
    let st3 : SellerState :=
      { st2 with sessions := dictSet st2.sessions skey sd2, db := rr.2 }
    let reply := if rr.1.content = "" then "✅ Payment received! Your order is being processed."
      else rr.1.content
    { st3 with outbox := st3.outbox ++ [OutMsg.chat reply] }

/-- src/protocols/payment_proto.py `on_commit`, with `verify_and_charge`
abstracted as the oracle `verify` (token, amount ↦ verified?):
1. a transaction id already marked for this sender and session returns with no
   effect; 2. non-"skyfire" methods are never verified; 3. a failed
   verification sends `RejectPayment`; 4. a verified commit runs
   `settle_order` above. -/
def on_commit (verify : String → String → Bool) (sender session : String)
    (msg : CommitMsg) (st : SellerState) : SellerState :=
  let txk := commit_key msg.transaction_id sender session
  if txk ∈ st.txMarkers then st
  else
    let verified := msg.payment_method = "skyfire" && verify msg.transaction_id msg.amount
    if verified then settle_order sender session msg st
    else
      { st with outbox := st.outbox ++ [OutMsg.rejectPayment "Payment verification failed"] }

/-! ## Inventory-operation sequences (for the no-oversell invariant) -/

/-- An inventory-mutating operation: `reserve` is `subtract_inventory`,
`restock` is `restock_item`. -/
inductive InvOp
  | reserve (item_name : String) (quantity : Int)
  | restock (item_name : String) (quantity : Int)
deriving DecidableEq

/-- The quantity argument of an operation. -/
def InvOp.qty : InvOp → Int
  | .reserve _ q => q
  | .restock _ q => q

/-- Run one operation against the store. -/
def applyOp (db : Store) : InvOp → Bool × Store
  | .reserve n q => subtract_inventory db n q
  | .restock n q => restock_item db n q

/-- Run a sequence of operations left to right. -/
def applyOps (db : Store) : List InvOp → Store
  | [] => db
  | op :: rest => applyOps (applyOp db op).2 rest

/-- Every quantity in the table is non-negative. -/
abbrev allNonneg (db : Store) : Prop := ∀ r ∈ db, 0 ≤ r.quantity

/-- For a sequence of `reserve` calls (each a `(item_name, quantity)` pair) run
left to right, the summed quantities of the calls against `name` that
returned `True`. -/
def reservedSum (name : String) : Store → List (String × Int) → Int
  | _, [] => 0
  | db, c :: rest =>
    (if (subtract_inventory db c.1 c.2).1 && c.1 == name then c.2 else 0) +
      reservedSum name (subtract_inventory db c.1 c.2).2 rest

/-- The final store after a sequence of `reserve` calls. -/
def runReserves (db : Store) : List (String × Int) → Store
  | [] => db
  | c :: rest => runReserves (subtract_inventory db c.1 c.2).2 rest

/-! ## Store lemmas -/

theorem setQty_row_fields (r : Row) (n : String) (v : Int) :
    (if r.item_name == n then { r with quantity := v } else r).item_name = r.item_name ∧
    (if r.item_name == n then { r with quantity := v } else r).price = r.price := by
  by_cases h : r.item_name == n <;> simp [h]

theorem getRow?_setQty (db : Store) (n m : String) (v : Int) :
    getRow? (setQty db n v) m =
      (getRow? db m).map (fun r => if r.item_name == n then { r with quantity := v } else r) := by
  unfold getRow? setQty
  rw [List.find?_map]
  have : ((fun r : Row => r.item_name == m) ∘
      (fun r : Row => if r.item_name == n then { r with quantity := v } else r)) =
      (fun r : Row => r.item_name == m) := by
    funext r
    simp only [Function.comp_apply, (setQty_row_fields r n v).1]
  rw [this]

theorem getQty?_setQty (db : Store) (n m : String) (v : Int) :
    getQty? (setQty db n v) m = (getQty? db m).map (fun q => if m = n then v else q) := by
  unfold getQty?
  rw [getRow?_setQty]
  cases h : getRow? db m with
  | none => rfl
  | some r =>
    have hm : r.item_name = m := by
      have := List.find?_some h
      simpa using this
    by_cases hmn : m = n <;> simp [hm, hmn]

theorem getQty?_setQty_ne (db : Store) {n m : String} (v : Int) (h : m ≠ n) :
    getQty? (setQty db n v) m = getQty? db m := by
  rw [getQty?_setQty]
  cases getQty? db m <;> simp [h]

theorem getQty?_setQty_self (db : Store) {n : String} (v : Int) {q : Int}
    (h : getQty? db n = some q) : getQty? (setQty db n v) n = some v := by
  rw [getQty?_setQty, h]
  simp

theorem allNonneg_setQty {db : Store} {n : String} {v : Int}
    (hdb : allNonneg db) (hv : 0 ≤ v) : allNonneg (setQty db n v) := by
  intro r hr
  unfold setQty at hr
  rcases List.mem_map.1 hr with ⟨r0, hr0, rfl⟩
  by_cases h : r0.item_name == n <;> simp [h, hv, hdb r0 hr0]

theorem subtract_preserves_nonneg {db : Store} (n : String) (q : Int)
    (hdb : allNonneg db) : allNonneg (subtract_inventory db n q).2 := by
  unfold subtract_inventory
  cases h : getRow? db n with
  | none => exact hdb
  | some r =>
    by_cases hlt : r.quantity < q
    · simpa [hlt] using hdb
    · have hv : 0 ≤ r.quantity - q := by omega
      simpa [hlt] using allNonneg_setQty hdb hv

theorem restock_preserves_nonneg {db : Store} (n : String) {q : Int}
    (hdb : allNonneg db) (hq : 0 ≤ q) : allNonneg (restock_item db n q).2 := by
  unfold restock_item
  cases h : getRow? db n with
  | none => exact hdb
  | some r =>
    have hr : r ∈ db := List.mem_of_find?_eq_some h
    have hv : 0 ≤ r.quantity + q := by have := hdb r hr; omega
    simpa using allNonneg_setQty hdb hv

theorem applyOps_preserves_nonneg (ops : List InvOp) :
    ∀ db : Store, allNonneg db → (∀ op ∈ ops, 0 ≤ op.qty) → allNonneg (applyOps db ops) := by
  induction ops with
  | nil => intro db hdb _; exact hdb
  | cons op rest ih =>
    intro db hdb hops
    have hstep : allNonneg (applyOp db op).2 := by
      cases op with
      | reserve n q => exact subtract_preserves_nonneg n q hdb
      | restock n q =>
        exact restock_preserves_nonneg n hdb (by simpa using hops (InvOp.restock n q) (by simp))
    exact ih (applyOp db op).2 hstep (fun o ho => hops o (List.mem_cons_of_mem _ ho))

theorem subtract_insufficient {db : Store} {n : String} {q qty : Int}
    (h : getQty? db n = some q) (hlt : q < qty) :
    subtract_inventory db n qty = (false, db) := by
  unfold getQty? at h
  cases hr : getRow? db n with
  | none => rw [hr] at h; exact absurd h (by simp)
  | some r =>
    rw [hr] at h
    have : r.quantity = q := by simpa using h
    unfold subtract_inventory
    rw [hr]
    simp [this, hlt]

theorem subtract_success_qty {db : Store} {n : String} {q qty : Int}
    (h : getQty? db n = some q) (hle : ¬ q < qty) :
    subtract_inventory db n qty = (true, setQty db n (q - qty)) ∧
    getQty? (subtract_inventory db n qty).2 n = some (q - qty) := by
  unfold getQty? at h
  cases hr : getRow? db n with
  | none => rw [hr] at h; exact absurd h (by simp)
  | some r =>
    rw [hr] at h
    have hq : r.quantity = q := by simpa using h
    have heq : subtract_inventory db n qty = (true, setQty db n (q - qty)) := by
      unfold subtract_inventory
      rw [hr]
      simp [hq, hle]
    refine ⟨heq, ?_⟩
    rw [heq]
    exact getQty?_setQty_self db (q - qty) (by unfold getQty?; rw [hr]; simpa using hq)

theorem subtract_fail_store {db : Store} {n : String} {q : Int}
    (h : (subtract_inventory db n q).1 = false) : (subtract_inventory db n q).2 = db := by
  unfold subtract_inventory at h ⊢
  cases hr : getRow? db n with
  | none => rfl
  | some r =>
    rw [hr] at h
    dsimp only at h ⊢
    by_cases hlt : r.quantity < q
    · rw [if_pos hlt]
    · rw [if_neg hlt] at h
      exact absurd h (by simp)

theorem subtract_other {db : Store} {n m : String} (q : Int) (hne : m ≠ n) :
    getQty? (subtract_inventory db n q).2 m = getQty? db m := by
  unfold subtract_inventory
  cases hr : getRow? db n with
  | none => rfl
  | some r =>
    dsimp only
    by_cases hlt : r.quantity < q
    · rw [if_pos hlt]
    · rw [if_neg hlt]
      exact getQty?_setQty_ne db (r.quantity - q) hne

theorem subtract_success_store {db : Store} {n : String} {q qty : Int}
    (h : getQty? db n = some q) (hsucc : (subtract_inventory db n qty).1 = true) :
    ¬ q < qty ∧ getQty? (subtract_inventory db n qty).2 n = some (q - qty) := by
  have hle : ¬ q < qty := by
    intro hlt
    rw [subtract_insufficient h hlt] at hsucc
    exact absurd hsucc (by simp)
  exact ⟨hle, (subtract_success_qty h hle).2⟩

theorem reservedSum_le (name : String) (calls : List (String × Int)) :
    ∀ (db : Store) (q0 : Int), getQty? db name = some q0 → 0 ≤ q0 →
      reservedSum name db calls ≤ q0 := by
  induction calls with
  | nil => intro db q0 _ h0; simpa [reservedSum] using h0
  | cons c rest ih =>
    intro db q0 hq h0
    unfold reservedSum
    by_cases hok : (subtract_inventory db c.1 c.2).1 = true
    · by_cases hname : c.1 = name
      · subst hname
        obtain ⟨hle, hq'⟩ := subtract_success_store hq hok
        have hrec := ih (subtract_inventory db c.1 c.2).2 (q0 - c.2) hq' (by omega)
        simp only [hok, beq_self_eq_true, Bool.and_self, if_true]
        omega
      · have hq' : getQty? (subtract_inventory db c.1 c.2).2 name = some q0 := by
          rw [subtract_other c.2 (fun hmn => hname hmn.symm)]
          exact hq
        have hrec := ih (subtract_inventory db c.1 c.2).2 q0 hq' h0
        have hbeq : (c.1 == name) = false := by
          simpa using hname
        simp only [hbeq, Bool.and_false, Bool.false_eq_true, if_false]
        omega
    · have hok' : (subtract_inventory db c.1 c.2).1 = false := by
        revert hok; cases (subtract_inventory db c.1 c.2).1 <;> simp
      have hdb := subtract_fail_store hok'
      have hrec := ih (subtract_inventory db c.1 c.2).2 q0 (by rw [hdb]; exact hq) h0
      simp only [hok', Bool.false_and, Bool.false_eq_true, if_false]
      omega

/-! ## Claim theorems -/

/-- C6: the resolver is deterministic across name variants —
`resolve("T-Shirts") = resolve("tshirt") = resolve("Tshirt")` (all "tshirt")
and `resolve("shoe") = resolve("shoes")` (both "shoes"), where resolve is
`normalize_item_name` with its lowercasing, whitespace/hyphen removal, alias
table, and trailing-"s" retry. -/
theorem c6_resolver_determinism :
    normalize_item_name "T-Shirts" = normalize_item_name "tshirt" ∧
    normalize_item_name "tshirt" = normalize_item_name "Tshirt" ∧
    normalize_item_name "T-Shirts" = "tshirt" ∧
    normalize_item_name "shoe" = normalize_item_name "shoes" ∧
    normalize_item_name "shoe" = "shoes" := by
  decide

/-- C7 counterexample: the raw name "Foo" matches no alias-table entry and no
canonical identifier (and its normalized form does not end in "s"), yet
`normalize_item_name` returns "foo", which differs from the input — the
resolver returns the lowercased/stripped normalized form, not the raw name. -/
theorem c7_counterexample :
    lookupAlias (preNormalize "Foo") = none ∧
    preNormalize "Foo" ∉ db_item_names ∧
    endsInS (preNormalize "Foo") = false ∧
    normalize_item_name "Foo" = "foo" ∧
    normalize_item_name "Foo" ≠ "Foo" := by
  decide

/-- C7 (amended): the resolver is a total function, and for every raw name
whose normalized form (lowercased, stripped, hyphens and spaces removed)
matches no alias-table entry and no canonical identifier — including after the
trailing-"s" retry — the normalized form passes through unchanged: the output
equals the normalized input (so a raw name already in normalized form passes
through identically). -/
theorem c7_amended_passthrough (raw : String)
    (halias : lookupAlias (preNormalize raw) = none)
    (hdb : preNormalize raw ∉ db_item_names)
    (hsing : endsInS (preNormalize raw) = true →
      dropLastChar (preNormalize raw) ∉ db_item_names ∧
      lookupAlias (dropLastChar (preNormalize raw)) = none) :
    normalize_item_name raw = preNormalize raw := by
  by_cases hempty : raw = ""
  · subst hempty
    decide
  · unfold normalize_item_name
    rw [if_neg hempty]
    simp only [halias]
    rw [if_neg hdb]
    by_cases hs : endsInS (preNormalize raw) = true
    · obtain ⟨hd, ha⟩ := hsing hs
      rw [if_pos hs]
      simp only [ha]
      rw [if_neg hd]
    · rw [if_neg hs]

/-- Witness for C7 (amended) at the raw name "Foo". -/
theorem c7_amended_witness :
    lookupAlias (preNormalize "Foo") = none ∧
    preNormalize "Foo" ∉ db_item_names ∧
    normalize_item_name "Foo" = preNormalize "Foo" :=
  ⟨by decide, by decide,
    c7_amended_passthrough "Foo" (by decide) (by decide) (by decide)⟩

/-- C5: `subtract_inventory` returns `False` and leaves the table unchanged
when the item is unknown or its quantity is below the request; otherwise it
returns `True` and decrements exactly that item's quantity by exactly the
requested amount (names and prices of all rows, and quantities of all other
rows, are untouched). -/
theorem c5_reserve_contract (db : Store) (name : String) (qty : Int) :
    (getRow? db name = none → subtract_inventory db name qty = (false, db)) ∧
    (∀ q : Int, getQty? db name = some q → q < qty →
      subtract_inventory db name qty = (false, db)) ∧
    (∀ q : Int, getQty? db name = some q → ¬ q < qty →
      subtract_inventory db name qty = (true, setQty db name (q - qty)) ∧
      getQty? (subtract_inventory db name qty).2 name = some (q - qty) ∧
      (∀ m, m ≠ name → getQty? (subtract_inventory db name qty).2 m = getQty? db m) ∧
      (subtract_inventory db name qty).2.map (fun r => (r.item_name, r.price)) =
        db.map (fun r => (r.item_name, r.price))) := by
  refine ⟨?_, ?_, ?_⟩
  · intro h
    unfold subtract_inventory
    rw [h]
  · intro q hq hlt
    exact subtract_insufficient hq hlt
  · intro q hq hle
    obtain ⟨heq, hqty⟩ := subtract_success_qty hq hle
    refine ⟨heq, hqty, fun m hm => subtract_other qty hm, ?_⟩
    rw [heq]
    unfold setQty
    rw [List.map_map]
    apply List.map_congr_left
    intro r _
    by_cases hr : r.item_name = name <;> simp [Function.comp, hr]

/-- Witness for C5: reserving 2 tshirts against the seed catalog succeeds and
leaves exactly 8. -/
theorem c5_witness :
    getQty? seed_items "tshirt" = some 10 ∧ ¬ (10 : Int) < 2 ∧
    subtract_inventory seed_items "tshirt" 2 = (true, setQty seed_items "tshirt" (10 - 2)) ∧
    getQty? (subtract_inventory seed_items "tshirt" 2).2 "tshirt" = some (10 - 2) := by
  have h := (c5_reserve_contract seed_items "tshirt" 2).2.2 10 (by decide) (by decide)
  exact ⟨by decide, by decide, h.1, h.2.1⟩

/-- C9: a stock check can pass for a name whose reservation then necessarily
fails — `check_stock` resolves "T-Shirts" through the normalized-name fallback
and reports 10 on the seed catalog, while `subtract_inventory` and
`restock_item` look up only the exact name, so for every quantity they return
`False` and leave the table unchanged. -/
theorem c9_normalized_read_exact_write (q : Int) :
    check_stock seed_items "T-Shirts" = 10 ∧
    (0 : Int) < check_stock seed_items "T-Shirts" ∧
    subtract_inventory seed_items "T-Shirts" q = (false, seed_items) ∧
    restock_item seed_items "T-Shirts" q = (false, seed_items) := by
  have hrow : getRow? seed_items "T-Shirts" = none := by decide
  refine ⟨by decide, by decide, ?_, ?_⟩
  · unfold subtract_inventory
    rw [hrow]
  · unfold restock_item
    rw [hrow]

/-- C3: quantities stay non-negative under every sequence of reserve and
restock operations (with the order quantities the interface supplies, i.e.
non-negative); a reservation that would drive a quantity below zero returns
`False` and leaves the store unchanged; and — the spec's no-oversell property —
for every sequence of reserve calls, the sum of the successful reservations
against one item never exceeds the quantity present before any of them ran. -/
theorem c3_nonneg_and_no_oversell :
    (∀ (db : Store) (ops : List InvOp), allNonneg db → (∀ op ∈ ops, 0 ≤ op.qty) →
      allNonneg (applyOps db ops)) ∧
    (∀ (db : Store) (name : String) (q qty : Int),
      getQty? db name = some q → q < qty → subtract_inventory db name qty = (false, db)) ∧
    (∀ (db : Store) (name : String) (q0 : Int) (calls : List (String × Int)),
      getQty? db name = some q0 → 0 ≤ q0 → reservedSum name db calls ≤ q0) :=
  ⟨fun db ops h1 h2 => applyOps_preserves_nonneg ops db h1 h2,
   fun _ _ _ _ hq hlt => subtract_insufficient hq hlt,
   fun db name q0 calls hq h0 => reservedSum_le name calls db q0 hq h0⟩

/-- C1 (the compensation the spec requires is absent from the code): when the
second reservation of a two-item order fails, `warehouse_node` leaves the
first item's decrement in place (tshirt drops from 10 to 8 and stays there),
issues no restock, reports the failure in `error_message`, and sets status
"subtracting_inventory" rather than "rejected". -/
theorem c1_no_rollback_on_mid_order_failure :
    let state0 : AgentState :=
      ⟨[], none, [⟨"tshirt", 2⟩, ⟨"jeans", 5⟩], none, none, none, none, none, none, none, none, none⟩
    let db0 : Store := [⟨"tshirt", 10, some 1999⟩, ⟨"jeans", 3, some 4999⟩]
    let y := warehouse_node (state0, db0)
    getQty? db0 "tshirt" = some 10 ∧
    y.2 = [⟨"tshirt", 8, some 1999⟩, ⟨"jeans", 3, some 4999⟩] ∧
    getQty? y.2 "tshirt" = some 8 ∧
    y.1.status = some "subtracting_inventory" ∧
    y.1.status ≠ some "rejected" ∧
    y.1.error_message = some "Failed to subtract inventory for jeans" := by
  decide

theorem cashier_route_end (y : AgentState × Store) :
    route_after_payment (cashier_node y).1 = "END" := rfl

theorem graph_run_no_restocker (x : AgentState × Store) :
    graph_run x =
      (if route_after_stock_check (stock_management_node x).1 = "warehouse"
       then cashier_node (warehouse_node (stock_management_node x))
       else stock_management_node x) := by
  simp only [graph_run]
  rw [cashier_route_end]
  simp

/-- C10: the restocker node is unreachable in the compiled graph —
`cashier_node` unconditionally sets `payment_status` to "successful", so
`route_after_payment` evaluated after cashier returns `END`, never
"restocker", and every graph execution is either rejection at stock check or
stock check, warehouse, cashier. -/
theorem c10_restocker_unreachable (x : AgentState × Store) :
    route_after_payment (cashier_node x).1 = "END" ∧
    route_after_payment (cashier_node x).1 ≠ "restocker" ∧
    graph_run x =
      (if route_after_stock_check (stock_management_node x).1 = "warehouse"
       then cashier_node (warehouse_node (stock_management_node x))
       else stock_management_node x) :=
  ⟨cashier_route_end x, by rw [cashier_route_end x]; decide, graph_run_no_restocker x⟩

/-- C2 counterexample: the reserve calls are not performed before the
settlement signal — with the seed catalog and an order of 2 tshirts stored in
the commit metadata, the store still holds 10 tshirts when the `CommitPayment`
arrives, and processing that settlement signal itself (`on_commit`, which runs
the workflow graph after verification) performs the decrement to 8. -/
theorem c2_counterexample :
    let st0 : SellerState := ⟨[], [], [], seed_items, []⟩
    let msg : CommitMsg := ⟨"tx1", "skyfire", "0.001", some [⟨"tshirt", 2⟩]⟩
    let st1 := on_commit (fun _ _ => true) "user" "sess" msg st0
    getQty? st0.db "tshirt" = some 10 ∧
    getQty? st1.db "tshirt" = some 8 ∧
    st1.db ≠ st0.db := by
  decide

/-- C2 (amended): the reserve calls happen during settlement processing — the
graph run inside `on_commit` decrements inventory in the warehouse step, which
precedes the cashier step — and the cashier (settled → completed) step
performs no inventory mutation: it is pure confirmation of the decrement that
already happened at warehouse time. -/
theorem c2_reserve_during_settlement :
    (∀ x : AgentState × Store, (cashier_node x).2 = x.2) ∧
    (∀ x : AgentState × Store,
      route_after_stock_check (stock_management_node x).1 = "warehouse" →
      graph_run x = cashier_node (warehouse_node (stock_management_node x))) := by
  constructor
  · intro x
    rfl
  · intro x h
    rw [graph_run_no_restocker x, if_pos h]

/-- Witness for C2 (amended) at an order of 2 tshirts against the seed
catalog. -/
theorem c2_amended_witness :
    (cashier_node (initial_agent_state [⟨"tshirt", 2⟩] emptyWf [], seed_items)).2 = seed_items ∧
    route_after_stock_check
      (stock_management_node (initial_agent_state [⟨"tshirt", 2⟩] emptyWf [], seed_items)).1 =
      "warehouse" ∧
    graph_run (initial_agent_state [⟨"tshirt", 2⟩] emptyWf [], seed_items) =
      cashier_node (warehouse_node
        (stock_management_node (initial_agent_state [⟨"tshirt", 2⟩] emptyWf [], seed_items))) :=
  ⟨c2_reserve_during_settlement.1 _, by decide, c2_reserve_during_settlement.2 _ (by decide)⟩

/-- Witness for C3 on the seed catalog: a reserve/restock round trip keeps all
quantities non-negative; reserving 5 jackets when 3 are on hand fails without
mutation; two reservations of 6 tshirts against 10 sum to at most 10 (the
second fails). -/
theorem c3_witness :
    allNonneg (applyOps seed_items [InvOp.reserve "tshirt" 2, InvOp.restock "tshirt" 2]) ∧
    subtract_inventory seed_items "jacket" 5 = (false, seed_items) ∧
    reservedSum "tshirt" seed_items [("tshirt", 6), ("tshirt", 6)] ≤ 10 ∧
    reservedSum "tshirt" seed_items [("tshirt", 6), ("tshirt", 6)] = 6 := by
  refine ⟨c3_nonneg_and_no_oversell.1 seed_items _ (by decide) (by decide),
          c3_nonneg_and_no_oversell.2.1 seed_items "jacket" 3 5 (by decide) (by decide),
          c3_nonneg_and_no_oversell.2.2 seed_items "tshirt" 10 _ (by decide) (by decide),
          by decide⟩

theorem zip_map_pair {α β : Type} (F : α → β) :
    ∀ (l : List α) (p : α × β), p ∈ l.zip (l.map F) → p.2 = F p.1 := by
  intro l
  induction l with
  | nil =>
    intro p hp
    simp at hp
  | cons a rest ih =>
    intro p hp
    rw [List.map_cons, List.zip_cons_cons] at hp
    rcases List.mem_cons.1 hp with h | h
    · subst h
      rfl
    · exact ih p h

theorem foldl_backfill_map (l : List (String × Int)) :
    ∀ db : Store, l.foldl backfill_price db = db.map (fun r => l.foldl backfill_step r) := by
  induction l with
  | nil =>
    intro db
    simp
  | cons np rest ih =>
    intro db
    rw [List.foldl_cons, ih (backfill_price db np)]
    unfold backfill_price
    rw [List.map_map]
    rfl

theorem backfill_keeps_nonmissing (l : List (String × Int)) :
    ∀ r : Row, ¬ (r.price = none ∨ r.price = some 0) → l.foldl backfill_step r = r := by
  induction l with
  | nil =>
    intro r _
    rfl
  | cons np rest ih =>
    intro r h
    push_neg at h
    have hstep : backfill_step r np = r := by
      unfold backfill_step
      simp [h.1, h.2]
    rw [List.foldl_cons, hstep]
    exact ih r (by push_neg; exact h)

theorem backfill_missing_char (l : List (String × Int)) :
    ∀ r : Row, (∀ np ∈ l, np.2 ≠ 0) → (r.price = none ∨ r.price = some 0) →
    l.foldl backfill_step r =
      (match (l.find? (fun np => np.1 == r.item_name)).map (fun np => np.2) with
       | some p => { r with price := some p }
       | none => r) := by
  induction l with
  | nil =>
    intro r _ _
    rfl
  | cons np rest ih =>
    intro r hl h
    rw [List.foldl_cons]
    by_cases hn : np.1 = r.item_name
    · have hstep : backfill_step r np = { r with price := some np.2 } := by
        unfold backfill_step
        rcases h with h | h <;> simp [hn, h]
      have hnp2 : np.2 ≠ 0 := hl np (by simp)
      rw [hstep, backfill_keeps_nonmissing rest _ (by simp [hnp2]),
          List.find?_cons_of_pos _ (by simp [hn])]
      rfl
    · have hstep : backfill_step r np = r := by
        unfold backfill_step
        simp [Ne.symm hn]
      rw [hstep, List.find?_cons_of_neg _ (by simp [hn])]
      exact ih r (fun np' h' => hl np' (List.mem_cons_of_mem _ h')) h

theorem backfill_step_fields (r : Row) (np : String × Int) :
    (backfill_step r np).item_name = r.item_name ∧ (backfill_step r np).quantity = r.quantity := by
  unfold backfill_step
  split <;> simp

theorem foldl_backfill_fields (l : List (String × Int)) :
    ∀ r : Row, (l.foldl backfill_step r).item_name = r.item_name ∧
      (l.foldl backfill_step r).quantity = r.quantity := by
  induction l with
  | nil =>
    intro r
    exact ⟨rfl, rfl⟩
  | cons np rest ih =>
    intro r
    rw [List.foldl_cons]
    obtain ⟨h1, h2⟩ := ih (backfill_step r np)
    obtain ⟨h3, h4⟩ := backfill_step_fields r np
    exact ⟨h1.trans h3, h2.trans h4⟩

theorem init_database_nonempty (db : Store) (hdb : db ≠ []) :
    init_database db = db.map (fun r => default_prices.foldl backfill_step r) := by
  unfold init_database
  rw [if_neg hdb]
  exact foldl_backfill_map default_prices db

/-- C8: store initialization is idempotent — on an empty table it inserts
exactly the seed catalog; re-run on a non-empty table it preserves every row's
name and quantity, leaves rows with a real price completely unchanged, and
rewrites a missing (NULL or 0) price to the default price for that name (rows
with a missing price and no default stay unchanged). -/
theorem c8_init_idempotent :
    init_database ([] : Store) = seed_items ∧
    ∀ db : Store, db ≠ [] →
      ((init_database db).map (fun r => (r.item_name, r.quantity)) =
        db.map (fun r => (r.item_name, r.quantity))) ∧
      ∀ p : Row × Row, p ∈ db.zip (init_database db) →
        (¬ (p.1.price = none ∨ p.1.price = some 0) → p.2 = p.1) ∧
        ((p.1.price = none ∨ p.1.price = some 0) →
          p.2 = (match lookup_default_price p.1.item_name with
                 | some pr => { p.1 with price := some pr }
                 | none => p.1)) := by
  constructor
  · rfl
  · intro db hdb
    rw [init_database_nonempty db hdb]
    constructor
    · rw [List.map_map]
      apply List.map_congr_left
      intro r _
      obtain ⟨h1, h2⟩ := foldl_backfill_fields default_prices r
      simp [Function.comp, h1, h2]
    · intro p hp
      have hF := zip_map_pair (fun r => default_prices.foldl backfill_step r) db p hp
      constructor
      · intro hmiss
        rw [hF]
        exact backfill_keeps_nonmissing default_prices p.1 hmiss
      · intro hmiss
        rw [hF]
        dsimp only
        rw [backfill_missing_char default_prices p.1 (by decide) hmiss]
        rfl

/-- Witness for C8: re-running initialization on a table holding a zero-priced
tshirt row and an unknown row backfills only the tshirt price, keeping both
quantities. -/
theorem c8_witness :
    ([⟨"tshirt", 7, some 0⟩, ⟨"odd", 2, none⟩] : Store) ≠ [] ∧
    (init_database [⟨"tshirt", 7, some 0⟩, ⟨"odd", 2, none⟩]).map
        (fun r => (r.item_name, r.quantity)) =
      ([⟨"tshirt", 7, some 0⟩, ⟨"odd", 2, none⟩] : Store).map
        (fun r => (r.item_name, r.quantity)) ∧
    init_database [⟨"tshirt", 7, some 0⟩, ⟨"odd", 2, none⟩] =
      [⟨"tshirt", 7, some 1999⟩, ⟨"odd", 2, none⟩] :=
  ⟨by decide, (c8_init_idempotent.2 _ (by decide)).1, by decide⟩

theorem on_commit_marked {verify : String → String → Bool} {sender session : String}
    {msg : CommitMsg} {st : SellerState}
    (h : commit_key msg.transaction_id sender session ∈ st.txMarkers) :
    on_commit verify sender session msg st = st := by
  unfold on_commit
  rw [if_pos h]

theorem settle_order_txMarkers (sender session : String) (msg : CommitMsg) (st : SellerState) :
    (settle_order sender session msg st).txMarkers =
      st.txMarkers ++ [commit_key msg.transaction_id sender session] := by
  simp only [settle_order]
  repeat' split
  all_goals rfl

theorem settle_order_outbox (sender session : String) (msg : CommitMsg) (st : SellerState) :
    ∃ t, (settle_order sender session msg st).outbox =
      st.outbox ++ [OutMsg.completePayment msg.transaction_id, OutMsg.chat t] := by
  simp only [settle_order]
  repeat' split
  all_goals exact ⟨_, List.append_assoc _ _ _⟩

theorem on_commit_fresh_shape {verify : String → String → Bool} {sender session : String}
    {msg : CommitMsg} {st : SellerState}
    (hfresh : commit_key msg.transaction_id sender session ∉ st.txMarkers)
    (hmethod : msg.payment_method = "skyfire")
    (hverify : verify msg.transaction_id msg.amount = true) :
    (on_commit verify sender session msg st).txMarkers =
      st.txMarkers ++ [commit_key msg.transaction_id sender session] ∧
    ∃ t, (on_commit verify sender session msg st).outbox =
      st.outbox ++ [OutMsg.completePayment msg.transaction_id, OutMsg.chat t] := by
  unfold on_commit
  rw [if_neg hfresh, hmethod, hverify]
  simp only [eq_self_iff_true, decide_True, Bool.and_self, if_true]
  exact ⟨settle_order_txMarkers sender session msg st, settle_order_outbox sender session msg st⟩

/-- C4: settlement is idempotent — after a verified `CommitPayment` with a
fresh transaction id for a given sender and session, the handler has appended
exactly one `CompletePayment` and one chat reply to the outbox (and its
inventory and storage effects are those of that single settlement), and
processing the same `CommitPayment` a second time is a complete no-op on the
seller state: the per-transaction idempotency marker set on first settlement
makes the duplicate return unchanged. -/
theorem c4_settlement_idempotent (verify : String → String → Bool) (sender session : String)
    (msg : CommitMsg) (st : SellerState)
    (hfresh : commit_key msg.transaction_id sender session ∉ st.txMarkers)
    (hmethod : msg.payment_method = "skyfire")
    (hverify : verify msg.transaction_id msg.amount = true) :
    on_commit verify sender session msg (on_commit verify sender session msg st) =
      on_commit verify sender session msg st ∧
    ∃ t, (on_commit verify sender session msg st).outbox =
      st.outbox ++ [OutMsg.completePayment msg.transaction_id, OutMsg.chat t] := by
  obtain ⟨hmark, houtbox⟩ := on_commit_fresh_shape hfresh hmethod hverify
  refine ⟨on_commit_marked ?_, houtbox⟩
  rw [hmark]
  simp

/-- Witness for C4: a verified commit of 2 tshirts against the seed catalog —
the duplicate delivery leaves the seller state unchanged, and the single
settlement produced exactly one `CompletePayment` plus one completion chat
message while reserving the stock once (10 → 8). -/
theorem c4_witness :
    commit_key "tx1" "alice" "s1" ∉ ([] : List String) ∧
    (on_commit (fun _ _ => true) "alice" "s1"
        ⟨"tx1", "skyfire", "0.001", some [⟨"tshirt", 2⟩]⟩
        ⟨[], [], [], seed_items, []⟩).outbox =
      [OutMsg.completePayment "tx1",
       OutMsg.chat ("✅ Order completed successfully! Your purchase of 2x tshirt has been " ++
         "processed. Thank you for your order!")] ∧
    getQty? (on_commit (fun _ _ => true) "alice" "s1"
        ⟨"tx1", "skyfire", "0.001", some [⟨"tshirt", 2⟩]⟩
        ⟨[], [], [], seed_items, []⟩).db "tshirt" = some 8 ∧
    on_commit (fun _ _ => true) "alice" "s1"
        ⟨"tx1", "skyfire", "0.001", some [⟨"tshirt", 2⟩]⟩
        (on_commit (fun _ _ => true) "alice" "s1"
          ⟨"tx1", "skyfire", "0.001", some [⟨"tshirt", 2⟩]⟩
          ⟨[], [], [], seed_items, []⟩) =
      on_commit (fun _ _ => true) "alice" "s1"
        ⟨"tx1", "skyfire", "0.001", some [⟨"tshirt", 2⟩]⟩
        ⟨[], [], [], seed_items, []⟩ :=
  ⟨by decide, by decide, by decide,
   (c4_settlement_idempotent (fun _ _ => true) "alice" "s1"
     ⟨"tx1", "skyfire", "0.001", some [⟨"tshirt", 2⟩]⟩
     ⟨[], [], [], seed_items, []⟩ (by decide) rfl rfl).1⟩

end FetchPay
